import Mathlib

/-!
Verification of the expense-tracker web service core.

The Python source (FastAPI routers `app/routers/auth.py` and
`app/routers/expense.py`, plus `app/core/security.py` and `app/main.py`) is
shallowly embedded below.  The database is modelled as an explicit list of
rows, monetary amounts as exact rationals, timestamps as integers counting
seconds, and the JWT layer as a signed-payload record carrying the signing
key; password hashing is kept abstract as a function parameter, since the
handlers are parametric in it.  Fallible handlers return `Except HttpError`.
-/

namespace ExpenseTracker

/-- The closed category enum from `app/models/models.py` / `app/schemas/schemas.py`. -/
inductive ExpenseCategory where
  | food
  | transport
  | utilities
  | entertainment
  | healthcare
  | shopping
  | education
  | other
  deriving DecidableEq

/-- The string `.value` of each enum member, as used by the statistics handler. -/
def ExpenseCategory.value : ExpenseCategory → String
  | .food => "food"
  | .transport => "transport"
  | .utilities => "utilities"
  | .entertainment => "entertainment"
  | .healthcare => "healthcare"
  | .shopping => "shopping"
  | .education => "education"
  | .other => "other"

/-- A row of the `users` table (`app/models/models.py`).  `is_active` is the
boolean-as-integer active flag; timestamps are seconds. -/
structure User where
  id : Nat
  email : String
  username : String
  hashed_password : String
  full_name : Option String
  is_active : Bool
  created_at : Int
  deriving DecidableEq

/-- A row of the `expenses` table (`app/models/models.py`). -/
structure Expense where
  id : Nat
  title : String
  amount : Rat
  category : ExpenseCategory
  description : Option String
  date : Int
  created_at : Int
  updated_at : Int
  user_id : Nat
  ai_confidence : Option Rat
  ai_suggested_category : Option String
  deriving DecidableEq

/-- An `HTTPException`: status code plus detail message. -/
structure HttpError where
  status_code : Nat
  detail : String
  deriving DecidableEq

/-- An HTTP route: method and full path (router prefix already applied). -/
structure Route where
  method : String
  path : String
  deriving DecidableEq

/-- The routes declared on the auth router (`app/routers/auth.py`, prefix
`/api/auth`). -/
def authRouterRoutes : List Route :=
  [ ⟨"POST", "/api/auth/register"⟩,
    ⟨"POST", "/api/auth/login"⟩,
    ⟨"GET", "/api/auth/me"⟩,
    ⟨"PUT", "/api/auth/me"⟩,
    ⟨"POST", "/api/auth/logout"⟩,
    ⟨"DELETE", "/api/auth/me"⟩ ]

/-- The routes declared on the expense router (`app/routers/expense.py`,
prefix `/api/expenses`). -/
def expenseRouterRoutes : List Route :=
  [ ⟨"POST", "/api/expenses/"⟩,
    ⟨"GET", "/api/expenses/"⟩,
    ⟨"GET", "/api/expenses/statistics"⟩,
    ⟨"GET", "/api/expenses/\x7bexpense_id\x7d"⟩,
    ⟨"PUT", "/api/expenses/\x7bexpense_id\x7d"⟩,
    ⟨"DELETE", "/api/expenses/\x7bexpense_id\x7d"⟩,
    ⟨"GET", "/api/expenses/recent/week"⟩,
    ⟨"GET", "/api/expenses/recent/month"⟩ ]

/-- The routes registered on the application: `app/main.py` declares `GET /`
and `GET /health` and calls `app.include_router` exactly once, on the auth
router (line 33); the expense router is never included. -/
def appRegisteredRoutes : List Route :=
  ⟨"GET", "/"⟩ :: ⟨"GET", "/health"⟩ :: authRouterRoutes

/-- C1: the spec claims every expense-ledger route is reachable through the
application's registered routers; in the code `app/main.py` registers only
the auth router, so none of the eight `/api/expenses` routes of the expense
router is among the application's registered routes (each such request 404s). -/
theorem C1_expense_routes_unreachable :
    (⟨"GET", "/api/expenses/"⟩ : Route) ∈ expenseRouterRoutes
      ∧ (⟨"GET", "/api/expenses/"⟩ : Route) ∉ appRegisteredRoutes
      ∧ expenseRouterRoutes.all (fun r => !(appRegisteredRoutes.contains r)) = true := by
  decide

/-! ### Expense Ledger (`app/routers/expense.py`) -/

/-- The statistics handler's query: the owner filter, then the optional
`date >= start_date` and `date <= end_date` filters, applied in source order. -/
def statsQuery (db : List Expense) (uid : Nat) (s e : Option Int) : List Expense :=
  let q := db.filter (fun x => x.user_id == uid)
  let q := match s with
    | some d => q.filter (fun x => decide (d ≤ x.date))
    | none => q
  match e with
  | some d => q.filter (fun x => decide (x.date ≤ d))
  | none => q

/-- Python's `sum(e.amount for e in expenses)`: a left fold from `0`. -/
def sumAmounts (l : List Expense) : Rat :=
  l.foldl (fun s x => s + x.amount) 0

/-- One step of the statistics handler's `by_category` dict building:
initialise an absent key to `0` (appending, as dicts preserve insertion
order), then add the amount to the entry. -/
def addToCategory (m : List (String × Rat)) (c : String) (a : Rat) : List (String × Rat) :=
  if m.any (fun p => p.1 == c) then
    m.map (fun p => if p.1 == c then (p.1, p.2 + a) else p)
  else
    m ++ [(c, a)]

/-- The `by_category` dict of the statistics handler, built by iterating over
the matched expenses in order. -/
def byCategoryOf (l : List Expense) : List (String × Rat) :=
  l.foldl (fun m x => addToCategory m x.category.value x.amount) []

/-- Reading a key out of the `by_category` dict, defaulting to `0`. -/
def lookupCategory (m : List (String × Rat)) (c : String) : Rat :=
  match m.find? (fun p => p.1 == c) with
  | some p => p.2
  | none => 0

/-- The values of the `by_category` dict, summed. -/
def sumValues (m : List (String × Rat)) : Rat :=
  m.foldl (fun s p => s + p.2) 0

/-- The keys of the `by_category` dict. -/
def catKeys (m : List (String × Rat)) : List String :=
  m.map Prod.fst

/-- The statistics response schema (`ExpenseStatistics` in
`app/schemas/schemas.py`), with `by_category` as an insertion-ordered map. -/
structure ExpenseStatistics where
  total_expenses : Rat
  expense_count : Nat
  average_expense : Rat
  by_category : List (String × Rat)
  deriving DecidableEq

/-- `GET /api/expenses/statistics` (`get_expense_statistics`). -/
def get_expense_statistics (db : List Expense) (uid : Nat) (s e : Option Int) :
    ExpenseStatistics :=
  let expenses := statsQuery db uid s e
  if expenses.isEmpty then
    ⟨0, 0, 0, []⟩
  else
    let total := sumAmounts expenses
    let count := expenses.length
    ⟨total, count, if count > 0 then total / (count : Rat) else 0, byCategoryOf expenses⟩

/-- The ownership-gated lookup shared by the get/update/delete handlers:
`db.query(Expense).filter(Expense.id == expense_id, Expense.user_id ==
current_user.id).first()`. -/
def findOwnedExpense (db : List Expense) (uid eid : Nat) : Option Expense :=
  db.find? (fun x => x.id == eid && x.user_id == uid)

/-- `GET /api/expenses/\x7bexpense_id\x7d` (`get_expense`). -/
def get_expense (db : List Expense) (uid eid : Nat) : Except HttpError Expense :=
  match findOwnedExpense db uid eid with
  | some x => .ok x
  | none => .error ⟨404, "Expense not found"⟩

/-- The `ExpenseUpdate` patch schema: a field is `some` exactly when it was
set in the request body (`exclude_unset=True`); `description` (nullable in
the row) distinguishes set-to-null from absent. -/
structure ExpenseUpdate where
  title : Option String
  amount : Option Rat
  category : Option ExpenseCategory
  description : Option (Option String)
  date : Option Int
  deriving DecidableEq

/-- The all-absent patch. -/
def emptyExpensePatch : ExpenseUpdate :=
  ⟨none, none, none, none, none⟩

/-- The field application loop of `update_expense`: `setattr` for every field
present in the patch, then `expense.updated_at = datetime.utcnow()`. -/
def applyExpensePatch (x : Expense) (p : ExpenseUpdate) (now : Int) : Expense :=
  { x with
    title := p.title.getD x.title
    amount := p.amount.getD x.amount
    category := p.category.getD x.category
    description := p.description.getD x.description
    date := p.date.getD x.date
    updated_at := now }

/-- `PUT /api/expenses/\x7bexpense_id\x7d` (`update_expense`), returning the
updated row. -/
def update_expense (db : List Expense) (uid eid : Nat) (p : ExpenseUpdate) (now : Int) :
    Except HttpError Expense :=
  match findOwnedExpense db uid eid with
  | some x => .ok (applyExpensePatch x p now)
  | none => .error ⟨404, "Expense not found"⟩

/-- `DELETE /api/expenses/\x7bexpense_id\x7d` (`delete_expense`), returning
the new table contents and the confirmation message. -/
def delete_expense (db : List Expense) (uid eid : Nat) :
    Except HttpError (List Expense × String) :=
  match findOwnedExpense db uid eid with
  | some x => .ok (db.erase x, "Expense deleted successfully")
  | none => .error ⟨404, "Expense not found"⟩

/-- The descending expense-date order used by `order_by(Expense.date.desc())`. -/
def dateDesc (a b : Expense) : Prop :=
  b.date ≤ a.date

instance : DecidableRel dateDesc :=
  fun a b => Int.decLe b.date a.date

instance : IsTotal Expense dateDesc :=
  ⟨fun a b => le_total b.date a.date⟩

instance : IsTrans Expense dateDesc :=
  ⟨fun _ _ _ h h2 => le_trans h2 h⟩

/-- The ORDER BY step: a stable sort by expense date, newest first. -/
def sortByDateDesc (l : List Expense) : List Expense :=
  List.insertionSort dateDesc l

/-- The filtered, ordered sequence built by `get_expenses` before pagination:
owner filter, then the optional category / start_date / end_date filters in
source order, then the descending date sort. -/
def expensesQuery (db : List Expense) (uid : Nat) (category : Option ExpenseCategory)
    (s e : Option Int) : List Expense :=
  let q := db.filter (fun x => x.user_id == uid)
  let q := match category with
    | some c => q.filter (fun x => x.category == c)
    | none => q
  let q := match s with
    | some d => q.filter (fun x => decide (d ≤ x.date))
    | none => q
  let q := match e with
    | some d => q.filter (fun x => decide (x.date ≤ d))
    | none => q
  sortByDateDesc q

/-- `GET /api/expenses/` (`get_expenses`): the query above followed by
`.offset(skip).limit(limit)`. -/
def get_expenses (db : List Expense) (uid : Nat) (skip limit : Nat)
    (category : Option ExpenseCategory) (s e : Option Int) : List Expense :=
  ((expensesQuery db uid category s e).drop skip).take limit

/-- `GET /api/expenses/recent/week` (`get_week_expenses`): owner filter and
`date >= now - 7 days` in a single filter call, then the same ordering,
without pagination. -/
def get_week_expenses (db : List Expense) (uid : Nat) (now : Int) : List Expense :=
  let week_ago := now - 7 * 86400
  sortByDateDesc (db.filter (fun x => x.user_id == uid && decide (week_ago ≤ x.date)))

/-- `GET /api/expenses/recent/month` (`get_month_expenses`): the same with
`now - 30 days`. -/
def get_month_expenses (db : List Expense) (uid : Nat) (now : Int) : List Expense :=
  let month_ago := now - 30 * 86400
  sortByDateDesc (db.filter (fun x => x.user_id == uid && decide (month_ago ≤ x.date)))

/-- The spec's worked example: expenses A($10, food, day 1), B($20, food,
day 2), C($5, transport, day 3), all owned by user 1. -/
def exampleDB : List Expense :=
  [ ⟨1, "A", 10, .food, none, 1 * 86400, 0, 0, 1, none, none⟩,
    ⟨2, "B", 20, .food, none, 2 * 86400, 0, 0, 1, none, none⟩,
    ⟨3, "C", 5, .transport, none, 3 * 86400, 0, 0, 1, none, none⟩ ]

/-! ### Token Service (`app/core/security.py`) -/

/-- The compile-time default of `ACCESS_TOKEN_EXPIRE_MINUTES`
(`os.getenv("ACCESS_TOKEN_EXPIRE_MINUTES", "30")`). -/
def ACCESS_TOKEN_EXPIRE_MINUTES_default : Nat := 30

/-- The claims dict passed to `create_access_token`: an optional subject and
an optional `type` claim. -/
structure Claims where
  sub : Option String
  typ : Option String
  deriving DecidableEq

/-- A decoded JWT payload: the caller's claims plus the `exp` claim. -/
structure TokenPayload where
  sub : Option String
  typ : Option String
  exp : Int
  deriving DecidableEq

/-- An encoded JWT: its payload together with the signing key, standing for
the signature. -/
structure SignedToken where
  payload : TokenPayload
  key : String
  deriving DecidableEq

/-- `create_access_token(data, expires_delta)`: copies the claims, sets
`exp = now + expires_delta` (or `now` plus the configured minutes when no
delta is given) and signs with the process secret.  `cfgMinutes` is the
environment-configured `ACCESS_TOKEN_EXPIRE_MINUTES`. -/
def create_access_token (cfgMinutes : Nat) (data : Claims) (expires_delta : Option Int)
    (now : Int) (key : String) : SignedToken :=
  let expire := match expires_delta with
    | some d => now + d
    | none => now + (cfgMinutes : Int) * 60
  ⟨⟨data.sub, data.typ, expire⟩, key⟩

/-- `jwt.decode`: yields the payload when the signature key matches and the
token is not yet expired (`jose` rejects exactly when `exp < now`), and fails
(raises `JWTError`) otherwise. -/
def jwtDecode (t : SignedToken) (key : String) (now : Int) : Option TokenPayload :=
  if t.key == key && decide (now ≤ t.payload.exp) then some t.payload else none

/-- `create_reset_password_token(email)`: claims
`\x7bsub: email, type: "password_reset"\x7d` with a fixed 1-hour expiry. -/
def create_reset_password_token (cfgMinutes : Nat) (email : String) (now : Int)
    (key : String) : SignedToken :=
  create_access_token cfgMinutes ⟨some email, some "password_reset"⟩ (some 3600) now key

/-- `verify_reset_token(token)`: decode; on any `JWTError` return `none`;
return `none` unless the `type` claim equals `"password_reset"`; otherwise
return the `sub` claim. -/
def verify_reset_token (t : SignedToken) (key : String) (now : Int) : Option String :=
  match jwtDecode t key now with
  | none => none
  | some payload => if payload.typ ≠ some "password_reset" then none else payload.sub

/-! ### User Registry (`app/routers/auth.py`) -/

/-- The `UserCreate` request schema. -/
structure UserCreate where
  email : String
  username : String
  full_name : Option String
  password : String
  deriving DecidableEq

/-- The `UserResponse` schema: every field of `User` except the password
hash. -/
structure UserResponse where
  id : Nat
  email : String
  username : String
  full_name : Option String
  is_active : Bool
  created_at : Int
  deriving DecidableEq

/-- Serialising a user row into the response schema. -/
def toUserResponse (u : User) : UserResponse :=
  ⟨u.id, u.email, u.username, u.full_name, u.is_active, u.created_at⟩

/-- The success status code of the register route decorator. -/
def registerStatusCode : Nat := 201

/-- `POST /api/auth/register` (`register`): reject a duplicate email, then a
duplicate username; otherwise persist a new user with the hashed password and
the defaulted active flag, and return its response representation.  `hash`
is the Credential Store's hashing function, `newId` the id the database
assigns. -/
def register (db : List User) (data : UserCreate) (hash : String → String)
    (now : Int) (newId : Nat) : Except HttpError (List User × UserResponse) :=
  if (db.find? (fun u => u.email == data.email)).isSome then
    .error ⟨400, "Email already registered"⟩
  else if (db.find? (fun u => u.username == data.username)).isSome then
    .error ⟨400, "Username already taken"⟩
  else
    let newUser : User := ⟨newId, data.email, data.username, hash data.password,
      data.full_name, true, now⟩
    .ok (db ++ [newUser], toUserResponse newUser)

/-- The login lookup: `first()` by username, then `first()` by email. -/
def findLoginUser (db : List User) (ident : String) : Option User :=
  match db.find? (fun u => u.username == ident) with
  | some u => some u
  | none => db.find? (fun u => u.email == ident)

/-- `POST /api/auth/login` (`login`): 401 when no user matches or password
verification fails, 400 when the matched user is inactive, otherwise a token
with the username as subject and the configured expiry minutes as delta.
`vp` is the Credential Store's `verify_password`. -/
def login (cfgMinutes : Nat) (db : List User) (vp : String → String → Bool)
    (ident pw : String) (now : Int) (key : String) : Except HttpError SignedToken :=
  match findLoginUser db ident with
  | none => .error ⟨401, "Incorrect username/email or password"⟩
  | some user =>
    if !(vp pw user.hashed_password) then
      .error ⟨401, "Incorrect username/email or password"⟩
    else if !user.is_active then
      .error ⟨400, "Inactive user account"⟩
    else
      .ok (create_access_token cfgMinutes ⟨some user.username, none⟩
        (some ((cfgMinutes : Int) * 60)) now key)

/-- The `UserUpdate` patch schema: a field is `some` exactly when the request
supplied a (possibly empty) value for it. -/
structure UserUpdate where
  email : Option String
  username : Option String
  full_name : Option String
  password : Option String
  deriving DecidableEq

/-- Python truthiness of an optional string: present and non-empty. -/
def truthyStr (o : Option String) : Bool :=
  match o with
  | some s => !(s == "")
  | none => false

/-- The email conflict test of `update_profile`: run only when the patch
email is truthy and differs from the current email; true when any user row
carries the new email. -/
def emailConflict (db : List User) (cu : User) (p : UserUpdate) : Bool :=
  match p.email with
  | some v => !(v == "") && !(v == cu.email) && (db.find? (fun u => u.email == v)).isSome
  | none => false

/-- The username conflict test of `update_profile`, analogous. -/
def usernameConflict (db : List User) (cu : User) (p : UserUpdate) : Bool :=
  match p.username with
  | some v => !(v == "") && !(v == cu.username) && (db.find? (fun u => u.username == v)).isSome
  | none => false

/-- `if user_update.email: current_user.email = user_update.email` — the
write happens only when the patch value is truthy (present and non-empty). -/
def applyEmailField (u : User) (p : UserUpdate) : User :=
  match p.email with
  | some v => if v == "" then u else { u with email := v }
  | none => u

/-- The corresponding username write. -/
def applyUsernameField (u : User) (p : UserUpdate) : User :=
  match p.username with
  | some v => if v == "" then u else { u with username := v }
  | none => u

/-- The corresponding full-name write. -/
def applyFullNameField (u : User) (p : UserUpdate) : User :=
  match p.full_name with
  | some v => if v == "" then u else { u with full_name := some v }
  | none => u

/-- The corresponding password write, through the hash function. -/
def applyPasswordField (u : User) (p : UserUpdate) (hash : String → String) : User :=
  match p.password with
  | some v => if v == "" then u else { u with hashed_password := hash v }
  | none => u

/-- The field application block of `update_profile`: the four conditional
writes in source order. -/
def applyProfilePatch (u : User) (p : UserUpdate) (hash : String → String) : User :=
  applyPasswordField (applyFullNameField (applyUsernameField (applyEmailField u p) p) p) p hash

/-- `PUT /api/auth/me` (`update_profile`): the two conflict checks in source
order, then the field application block, returning the updated user row. -/
def update_profile (db : List User) (cu : User) (p : UserUpdate)
    (hash : String → String) : Except HttpError User :=
  if emailConflict db cu p then
    .error ⟨400, "Email already in use"⟩
  else if usernameConflict db cu p then
    .error ⟨400, "Username already taken"⟩
  else
    .ok (applyProfilePatch cu p hash)

/-! ### Helper lemmas for the statistics aggregation -/

theorem sumAmounts_go (l : List Expense) (a : Rat) :
    l.foldl (fun s x => s + x.amount) a = a + sumAmounts l := by
  induction l generalizing a with
  | nil => simp [sumAmounts]
  | cons x t ih =>
    have h2 : sumAmounts (x :: t) = 0 + x.amount + sumAmounts t := by
      show List.foldl (fun s x => s + x.amount) 0 (x :: t) = _
      rw [List.foldl_cons, ih]
    rw [List.foldl_cons, ih, h2]
    ring

theorem sumAmounts_cons (x : Expense) (t : List Expense) :
    sumAmounts (x :: t) = x.amount + sumAmounts t := by
  show List.foldl (fun s x => s + x.amount) 0 (x :: t) = _
  rw [List.foldl_cons, sumAmounts_go]
  ring

theorem sumValues_go (m : List (String × Rat)) (a : Rat) :
    m.foldl (fun s p => s + p.2) a = a + sumValues m := by
  induction m generalizing a with
  | nil => simp [sumValues]
  | cons q t ih =>
    have h2 : sumValues (q :: t) = 0 + q.2 + sumValues t := by
      show List.foldl (fun s p => s + p.2) 0 (q :: t) = _
      rw [List.foldl_cons, ih]
    rw [List.foldl_cons, ih, h2]
    ring

theorem sumValues_cons (q : String × Rat) (t : List (String × Rat)) :
    sumValues (q :: t) = q.2 + sumValues t := by
  show List.foldl (fun s p => s + p.2) 0 (q :: t) = _
  rw [List.foldl_cons, sumValues_go]
  ring

theorem sumValues_append (m₁ m₂ : List (String × Rat)) :
    sumValues (m₁ ++ m₂) = sumValues m₁ + sumValues m₂ := by
  induction m₁ with
  | nil => simp [sumValues]
  | cons q t ih => rw [List.cons_append, sumValues_cons, sumValues_cons, ih]; ring

theorem lookupCategory_addToCategory (m : List (String × Rat)) (cv c : String) (a : Rat) :
    lookupCategory (addToCategory m cv a) c
      = lookupCategory m c + (if cv = c then a else 0) := by
  unfold addToCategory
  by_cases hany : m.any (fun p => p.1 == cv) = true
  · rw [if_pos hany]
    have hpf : ((fun p : String × Rat => p.1 == c) ∘
        (fun p : String × Rat => if p.1 == cv then (p.1, p.2 + a) else p))
          = (fun p : String × Rat => p.1 == c) := by
      funext p
      by_cases hp : p.1 = cv <;> simp [hp]
    unfold lookupCategory
    rw [List.find?_map, hpf]
    cases hm : m.find? (fun p => p.1 == c) with
    | none =>
      have hcv : ¬ cv = c := by
        intro he
        subst he
        obtain ⟨p, hpm, hpc⟩ := List.any_eq_true.mp hany
        exact absurd hpc (by simpa using List.find?_eq_none.mp hm p hpm)
      simp [hcv]
    | some q =>
      have hqc : q.1 = c := by simpa using List.find?_some hm
      by_cases hce : cv = c
      · subst hce
        simp [hqc]
      · have hqcv : ¬ q.1 = cv := by
          rw [hqc]
          exact fun h => hce h.symm
        simp [hqcv, hce]
  · rw [if_neg hany]
    unfold lookupCategory
    cases hm : m.find? (fun p => p.1 == c) with
    | none =>
      rw [List.find?_append, hm]
      by_cases hce : cv = c
      · subst hce
        simp
      · have : ¬ c = cv := fun h => hce h.symm
        simp [hce, this]
    | some q =>
      have hqc : q.1 = c := by simpa using List.find?_some hm
      have hcv : ¬ cv = c := by
        intro he
        subst he
        exact hany (List.any_eq_true.mpr ⟨q, List.mem_of_find?_eq_some hm, by simp [hqc]⟩)
      rw [List.find?_append, hm]
      simp [hcv]

theorem catKeys_map_update (m : List (String × Rat)) (cv : String) (a : Rat) :
    catKeys (m.map (fun p => if p.1 == cv then (p.1, p.2 + a) else p)) = catKeys m := by
  unfold catKeys
  rw [List.map_map]
  apply List.map_congr_left
  intro p _
  by_cases hp : p.1 = cv <;> simp [hp]

theorem catKeys_addToCategory_nodup (m : List (String × Rat)) (cv : String) (a : Rat)
    (h : (catKeys m).Nodup) : (catKeys (addToCategory m cv a)).Nodup := by
  unfold addToCategory
  by_cases hany : m.any (fun p => p.1 == cv) = true
  · rw [if_pos hany, catKeys_map_update]
    exact h
  · rw [if_neg hany]
    have hcv : cv ∉ catKeys m := by
      intro hmem
      obtain ⟨p, hpm, hp1⟩ := List.mem_map.mp hmem
      exact hany (List.any_eq_true.mpr ⟨p, hpm, by simp [hp1]⟩)
    unfold catKeys
    rw [List.map_append]
    simp only [List.map_cons, List.map_nil]
    rw [List.nodup_append]
    refine ⟨h, List.nodup_singleton cv, ?_⟩
    intro x hx hx2
    rw [List.mem_singleton] at hx2
    exact hcv (hx2 ▸ hx)

theorem sumValues_map_update (m : List (String × Rat)) (cv : String) (a : Rat)
    (hnd : (catKeys m).Nodup) (hany : m.any (fun p => p.1 == cv) = true) :
    sumValues (m.map (fun p => if p.1 == cv then (p.1, p.2 + a) else p)) = sumValues m + a := by
  induction m with
  | nil => simp at hany
  | cons q t ih =>
    rw [catKeys, List.map_cons, List.nodup_cons] at hnd
    by_cases hq : q.1 = cv
    · have ht : t.map (fun p => if p.1 == cv then (p.1, p.2 + a) else p) = t := by
        apply List.map_congr_left ?_ |>.trans (List.map_id t)
        intro p hpt
        have : ¬ p.1 = cv := by
          intro he
          exact hnd.1 (hq ▸ he ▸ List.mem_map_of_mem Prod.fst hpt)
        simp [this]
      rw [List.map_cons, ht]
      simp only [hq, beq_self_eq_true, if_pos]
      rw [sumValues_cons, sumValues_cons]
      show q.2 + a + sumValues t = q.2 + sumValues t + a
      ring
    · have hanyt : t.any (fun p => p.1 == cv) = true := by
        rcases List.any_eq_true.mp hany with ⟨p, hpm, hp⟩
        rcases List.mem_cons.mp hpm with he | hpt
        · exact absurd (by simpa using hp) (he ▸ hq)
        · exact List.any_eq_true.mpr ⟨p, hpt, hp⟩
      rw [List.map_cons]
      have hqif : (if q.1 == cv then (q.1, q.2 + a) else q) = q := by simp [hq]
      rw [hqif, sumValues_cons, sumValues_cons, ih hnd.2 hanyt]
      ring

theorem sumValues_addToCategory (m : List (String × Rat)) (cv : String) (a : Rat)
    (hnd : (catKeys m).Nodup) : sumValues (addToCategory m cv a) = sumValues m + a := by
  unfold addToCategory
  by_cases hany : m.any (fun p => p.1 == cv) = true
  · rw [if_pos hany]
    exact sumValues_map_update m cv a hnd hany
  · rw [if_neg hany, sumValues_append, sumValues_cons]
    show sumValues m + (a + sumValues []) = sumValues m + a
    simp [sumValues]

theorem mem_catKeys_addToCategory (m : List (String × Rat)) (cv c : String) (a : Rat) :
    c ∈ catKeys (addToCategory m cv a) ↔ c ∈ catKeys m ∨ c = cv := by
  unfold addToCategory
  by_cases hany : m.any (fun p => p.1 == cv) = true
  · rw [if_pos hany, catKeys_map_update]
    constructor
    · exact Or.inl
    · rintro (h | rfl)
      · exact h
      · obtain ⟨p, hpm, hp⟩ := List.any_eq_true.mp hany
        exact List.mem_map.mpr ⟨p, hpm, by simpa using hp⟩
  · rw [if_neg hany]
    unfold catKeys
    rw [List.map_append]
    simp

theorem lookupCategory_statsFoldl (l : List Expense) (m : List (String × Rat)) (c : String) :
    lookupCategory (l.foldl (fun m x => addToCategory m x.category.value x.amount) m) c
      = lookupCategory m c + sumAmounts (l.filter (fun x => x.category.value == c)) := by
  induction l generalizing m with
  | nil => simp [sumAmounts]
  | cons x t ih =>
    rw [List.foldl_cons, ih, lookupCategory_addToCategory]
    by_cases h : x.category.value = c
    · rw [List.filter_cons_of_pos (by simpa using h), sumAmounts_cons, if_pos h]
      ring
    · rw [List.filter_cons_of_neg (by simpa using h), if_neg h]
      ring

theorem catKeys_statsFoldl_nodup (l : List Expense) (m : List (String × Rat))
    (h : (catKeys m).Nodup) :
    (catKeys (l.foldl (fun m x => addToCategory m x.category.value x.amount) m)).Nodup := by
  induction l generalizing m with
  | nil => exact h
  | cons x t ih =>
    rw [List.foldl_cons]
    exact ih _ (catKeys_addToCategory_nodup _ _ _ h)

theorem sumValues_statsFoldl (l : List Expense) (m : List (String × Rat))
    (h : (catKeys m).Nodup) :
    sumValues (l.foldl (fun m x => addToCategory m x.category.value x.amount) m)
      = sumValues m + sumAmounts l := by
  induction l generalizing m with
  | nil => simp [sumAmounts]
  | cons x t ih =>
    rw [List.foldl_cons, ih _ (catKeys_addToCategory_nodup _ _ _ h),
      sumValues_addToCategory _ _ _ h, sumAmounts_cons]
    ring

theorem mem_catKeys_statsFoldl (l : List Expense) (m : List (String × Rat)) (c : String) :
    c ∈ catKeys (l.foldl (fun m x => addToCategory m x.category.value x.amount) m)
      ↔ c ∈ catKeys m ∨ ∃ x ∈ l, x.category.value = c := by
  induction l generalizing m with
  | nil => simp
  | cons x t ih =>
    rw [List.foldl_cons, ih, mem_catKeys_addToCategory]
    simp only [List.mem_cons]
    constructor
    · rintro ((h | rfl) | ⟨y, hy, hyc⟩)
      · exact Or.inl h
      · exact Or.inr ⟨x, Or.inl rfl, rfl⟩
      · exact Or.inr ⟨y, Or.inr hy, hyc⟩
    · rintro (h | ⟨y, rfl | hy, hyc⟩)
      · exact Or.inl (Or.inl h)
      · exact Or.inl (Or.inr hyc.symm)
      · exact Or.inr ⟨y, hy, hyc⟩

theorem lookupCategory_byCategoryOf (l : List Expense) (c : String) :
    lookupCategory (byCategoryOf l) c
      = sumAmounts (l.filter (fun x => x.category.value == c)) := by
  unfold byCategoryOf
  rw [lookupCategory_statsFoldl]
  simp [lookupCategory]

theorem sumValues_byCategoryOf (l : List Expense) :
    sumValues (byCategoryOf l) = sumAmounts l := by
  unfold byCategoryOf
  rw [sumValues_statsFoldl l [] (by simp [catKeys])]
  simp [sumValues]

theorem mem_catKeys_byCategoryOf (l : List Expense) (c : String) :
    c ∈ catKeys (byCategoryOf l) ↔ ∃ x ∈ l, x.category.value = c := by
  unfold byCategoryOf
  rw [mem_catKeys_statsFoldl]
  simp [catKeys]

/-- Closed form of the statistics handler: the empty-guard case and the
aggregating case. -/
theorem get_expense_statistics_eq (db : List Expense) (uid : Nat) (s e : Option Int) :
    get_expense_statistics db uid s e =
      if statsQuery db uid s e = [] then ⟨0, 0, 0, []⟩
      else ⟨sumAmounts (statsQuery db uid s e), (statsQuery db uid s e).length,
        sumAmounts (statsQuery db uid s e) / ((statsQuery db uid s e).length : Rat),
        byCategoryOf (statsQuery db uid s e)⟩ := by
  unfold get_expense_statistics
  by_cases he : statsQuery db uid s e = []
  · simp [he]
  · have hne : ¬ (statsQuery db uid s e).isEmpty = true := by
      simpa [List.isEmpty_iff] using he
    have hlen : 0 < (statsQuery db uid s e).length := List.length_pos.mpr he
    simp only [if_neg hne, if_neg he, if_pos hlen]

/-- Evaluation of the statistics handler on the spec's worked example. -/
theorem statistics_example_eval :
    get_expense_statistics exampleDB 1 none none
      = ⟨35, 3, 35 / 3, [("food", 30), ("transport", 5)]⟩ := by
  norm_num [get_expense_statistics, statsQuery, exampleDB, sumAmounts, byCategoryOf,
    addToCategory, ExpenseCategory.value, List.filter, List.foldl, List.any]
  decide

/-- C2: for every owner and optional date range, the statistics response has
`total` equal to the sum of the matched amounts, `count` their number,
`average = total / count` when some expense matches, the all-zero response
with an empty category map when none matches, and `by_category` mapping each
category string to the sum of the matching amounts; on the spec's worked
example the response is total 35, count 3, average 35/3, and
by_category \x7bfood: 30, transport: 5\x7d. -/
theorem C2_statistics_correct (db : List Expense) (uid : Nat) (s e : Option Int) :
    (get_expense_statistics db uid s e).total_expenses = sumAmounts (statsQuery db uid s e)
  ∧ (get_expense_statistics db uid s e).expense_count = (statsQuery db uid s e).length
  ∧ ((statsQuery db uid s e).length ≠ 0 →
      (get_expense_statistics db uid s e).average_expense
        = sumAmounts (statsQuery db uid s e) / ((statsQuery db uid s e).length : Rat))
  ∧ (statsQuery db uid s e = [] →
      get_expense_statistics db uid s e = ⟨0, 0, 0, []⟩)
  ∧ (∀ c, lookupCategory (get_expense_statistics db uid s e).by_category c
        = sumAmounts ((statsQuery db uid s e).filter (fun x => x.category.value == c)))
  ∧ get_expense_statistics exampleDB 1 none none
      = ⟨35, 3, 35 / 3, [("food", 30), ("transport", 5)]⟩ := by
  rw [get_expense_statistics_eq]
  by_cases he : statsQuery db uid s e = []
  · rw [if_pos he]
    refine ⟨by simp [he, sumAmounts], by simp [he], fun h => absurd (by simp [he]) h,
      fun _ => rfl, fun c => by simp [he, lookupCategory, sumAmounts],
      statistics_example_eval⟩
  · rw [if_neg he]
    exact ⟨rfl, rfl, fun _ => rfl, fun h => absurd h he,
      fun c => lookupCategory_byCategoryOf _ c, statistics_example_eval⟩

/-- C2 witness: the statistics response on the spec's worked example,
obtained from the claim theorem. -/
theorem C2_statistics_correct_witness :
    get_expense_statistics exampleDB 1 none none
      = ⟨35, 3, 35 / 3, [("food", 30), ("transport", 5)]⟩ :=
  (C2_statistics_correct exampleDB 1 none none).2.2.2.2.2

/-- C10: whenever some expense matches, the statistics response is internally
coherent: the values of `by_category` sum to `total`, its keys are exactly
the category strings occurring among the matched expenses, `count` is the
number of matched expenses, and `average * count = total`. -/
theorem C10_statistics_coherent (db : List Expense) (uid : Nat) (s e : Option Int)
    (h : statsQuery db uid s e ≠ []) :
    sumValues (get_expense_statistics db uid s e).by_category
        = (get_expense_statistics db uid s e).total_expenses
  ∧ (get_expense_statistics db uid s e).expense_count = (statsQuery db uid s e).length
  ∧ (∀ c, c ∈ catKeys (get_expense_statistics db uid s e).by_category
        ↔ ∃ x ∈ statsQuery db uid s e, x.category.value = c)
  ∧ (get_expense_statistics db uid s e).average_expense
        * ((get_expense_statistics db uid s e).expense_count : Rat)
      = (get_expense_statistics db uid s e).total_expenses := by
  rw [get_expense_statistics_eq, if_neg h]
  refine ⟨sumValues_byCategoryOf _, rfl, fun c => mem_catKeys_byCategoryOf _ c, ?_⟩
  exact div_mul_cancel₀ _ (Nat.cast_ne_zero.mpr (List.length_pos.mpr h).ne')

/-- C10 witness: the coherence facts instantiated on the spec's worked
example, with the non-emptiness hypothesis discharged by evaluation. -/
theorem C10_statistics_coherent_witness :
    statsQuery exampleDB 1 none none ≠ []
  ∧ (sumValues (get_expense_statistics exampleDB 1 none none).by_category
        = (get_expense_statistics exampleDB 1 none none).total_expenses
    ∧ (get_expense_statistics exampleDB 1 none none).expense_count
        = (statsQuery exampleDB 1 none none).length
    ∧ (∀ c, c ∈ catKeys (get_expense_statistics exampleDB 1 none none).by_category
          ↔ ∃ x ∈ statsQuery exampleDB 1 none none, x.category.value = c)
    ∧ (get_expense_statistics exampleDB 1 none none).average_expense
          * ((get_expense_statistics exampleDB 1 none none).expense_count : Rat)
        = (get_expense_statistics exampleDB 1 none none).total_expenses) :=
  ⟨by decide, C10_statistics_coherent exampleDB 1 none none (by decide)⟩

/-- The ownership-gated lookup misses exactly when no row with that id and
that owner exists. -/
theorem findOwnedExpense_eq_none (db : List Expense) (uid eid : Nat) :
    findOwnedExpense db uid eid = none ↔ ¬ ∃ x ∈ db, x.id = eid ∧ x.user_id = uid := by
  unfold findOwnedExpense
  rw [List.find?_eq_none]
  simp

/-- A hit of the ownership-gated lookup is a row of the table with the
requested id and owner. -/
theorem findOwnedExpense_eq_some (db : List Expense) (uid eid : Nat) (x : Expense)
    (h : findOwnedExpense db uid eid = some x) :
    x ∈ db ∧ x.id = eid ∧ x.user_id = uid := by
  refine ⟨List.mem_of_find?_eq_some h, ?_⟩
  simpa using List.find?_some h

/-- C3: get, update and delete answer the NotFound error exactly when no
expense with the requested id owned by the caller exists, and NotFound (404,
"Expense not found") is the only error any of them can produce — so an id
owned by a different user is indistinguishable from a nonexistent id and
never yields a Forbidden outcome. -/
theorem C3_ownership_gated_not_found (db : List Expense) (uid eid : Nat) :
    (get_expense db uid eid = .error ⟨404, "Expense not found"⟩
        ↔ ¬ ∃ x ∈ db, x.id = eid ∧ x.user_id = uid)
  ∧ (∀ p now, update_expense db uid eid p now = .error ⟨404, "Expense not found"⟩
        ↔ ¬ ∃ x ∈ db, x.id = eid ∧ x.user_id = uid)
  ∧ (delete_expense db uid eid = .error ⟨404, "Expense not found"⟩
        ↔ ¬ ∃ x ∈ db, x.id = eid ∧ x.user_id = uid)
  ∧ (∀ err, get_expense db uid eid = .error err → err = ⟨404, "Expense not found"⟩)
  ∧ (∀ p now err, update_expense db uid eid p now = .error err
        → err = ⟨404, "Expense not found"⟩)
  ∧ (∀ err, delete_expense db uid eid = .error err → err = ⟨404, "Expense not found"⟩) := by
  cases h : findOwnedExpense db uid eid with
  | none =>
    have hno := (findOwnedExpense_eq_none db uid eid).mp h
    refine ⟨?_, fun p now => ?_, ?_, ?_, ?_, ?_⟩ <;>
      simp [get_expense, update_expense, delete_expense, h, hno]
  | some x =>
    obtain ⟨hmem, hid, huid⟩ := findOwnedExpense_eq_some db uid eid x h
    have hex : ∃ y ∈ db, y.id = eid ∧ y.user_id = uid := ⟨x, hmem, hid, huid⟩
    refine ⟨?_, fun p now => ?_, ?_, ?_, ?_, ?_⟩ <;>
      simp [get_expense, update_expense, delete_expense, h, hex]

/-- C3 witness: user 2 requesting expense 1 of the worked example (which
exists but is owned by user 1) hits exactly the NotFound conditions. -/
theorem C3_ownership_gated_not_found_witness :
    (get_expense exampleDB 2 1 = .error ⟨404, "Expense not found"⟩
        ↔ ¬ ∃ x ∈ exampleDB, x.id = 1 ∧ x.user_id = 2)
  ∧ (∀ p now, update_expense exampleDB 2 1 p now = .error ⟨404, "Expense not found"⟩
        ↔ ¬ ∃ x ∈ exampleDB, x.id = 1 ∧ x.user_id = 2)
  ∧ (delete_expense exampleDB 2 1 = .error ⟨404, "Expense not found"⟩
        ↔ ¬ ∃ x ∈ exampleDB, x.id = 1 ∧ x.user_id = 2)
  ∧ (∀ err, get_expense exampleDB 2 1 = .error err → err = ⟨404, "Expense not found"⟩)
  ∧ (∀ p now err, update_expense exampleDB 2 1 p now = .error err
        → err = ⟨404, "Expense not found"⟩)
  ∧ (∀ err, delete_expense exampleDB 2 1 = .error err → err = ⟨404, "Expense not found"⟩) :=
  C3_ownership_gated_not_found exampleDB 2 1

/-- C6: the expense patch application writes exactly the present patch
fields, keeps every absent field and every non-patchable field unchanged,
always refreshes `updated_at` (also for the empty patch), and is what the
update handler applies to the looked-up row. -/
theorem C6_update_frame (db : List Expense) (uid eid : Nat) (x : Expense)
    (p : ExpenseUpdate) (now : Int) :
    (p.title = none → (applyExpensePatch x p now).title = x.title)
  ∧ (∀ v, p.title = some v → (applyExpensePatch x p now).title = v)
  ∧ (p.amount = none → (applyExpensePatch x p now).amount = x.amount)
  ∧ (∀ v, p.amount = some v → (applyExpensePatch x p now).amount = v)
  ∧ (p.category = none → (applyExpensePatch x p now).category = x.category)
  ∧ (∀ v, p.category = some v → (applyExpensePatch x p now).category = v)
  ∧ (p.description = none → (applyExpensePatch x p now).description = x.description)
  ∧ (∀ v, p.description = some v → (applyExpensePatch x p now).description = v)
  ∧ (p.date = none → (applyExpensePatch x p now).date = x.date)
  ∧ (∀ v, p.date = some v → (applyExpensePatch x p now).date = v)
  ∧ (applyExpensePatch x p now).updated_at = now
  ∧ (applyExpensePatch x p now).id = x.id
  ∧ (applyExpensePatch x p now).user_id = x.user_id
  ∧ (applyExpensePatch x p now).created_at = x.created_at
  ∧ (applyExpensePatch x p now).ai_confidence = x.ai_confidence
  ∧ (applyExpensePatch x p now).ai_suggested_category = x.ai_suggested_category
  ∧ applyExpensePatch x emptyExpensePatch now = { x with updated_at := now }
  ∧ (findOwnedExpense db uid eid = some x →
      update_expense db uid eid p now = .ok (applyExpensePatch x p now)) := by
  refine ⟨fun h => by simp [applyExpensePatch, h], fun v h => by simp [applyExpensePatch, h],
    fun h => by simp [applyExpensePatch, h], fun v h => by simp [applyExpensePatch, h],
    fun h => by simp [applyExpensePatch, h], fun v h => by simp [applyExpensePatch, h],
    fun h => by simp [applyExpensePatch, h], fun v h => by simp [applyExpensePatch, h],
    fun h => by simp [applyExpensePatch, h], fun v h => by simp [applyExpensePatch, h],
    rfl, rfl, rfl, rfl, rfl, rfl, rfl,
    fun h => by simp [update_expense, h]⟩

/-- C6 witness: updating expense 1 of the worked example with a patch that
only renames it, at time 99. -/
theorem C6_update_frame_witness :
    ((⟨some "A2", none, none, none, none⟩ : ExpenseUpdate).title = none →
      (applyExpensePatch (exampleDB.get ⟨0, by decide⟩) ⟨some "A2", none, none, none, none⟩ 99).title
        = (exampleDB.get ⟨0, by decide⟩).title)
  ∧ (∀ v, (⟨some "A2", none, none, none, none⟩ : ExpenseUpdate).title = some v →
      (applyExpensePatch (exampleDB.get ⟨0, by decide⟩) ⟨some "A2", none, none, none, none⟩ 99).title = v)
  ∧ ((⟨some "A2", none, none, none, none⟩ : ExpenseUpdate).amount = none →
      (applyExpensePatch (exampleDB.get ⟨0, by decide⟩) ⟨some "A2", none, none, none, none⟩ 99).amount
        = (exampleDB.get ⟨0, by decide⟩).amount)
  ∧ (∀ v, (⟨some "A2", none, none, none, none⟩ : ExpenseUpdate).amount = some v →
      (applyExpensePatch (exampleDB.get ⟨0, by decide⟩) ⟨some "A2", none, none, none, none⟩ 99).amount = v)
  ∧ ((⟨some "A2", none, none, none, none⟩ : ExpenseUpdate).category = none →
      (applyExpensePatch (exampleDB.get ⟨0, by decide⟩) ⟨some "A2", none, none, none, none⟩ 99).category
        = (exampleDB.get ⟨0, by decide⟩).category)
  ∧ (∀ v, (⟨some "A2", none, none, none, none⟩ : ExpenseUpdate).category = some v →
      (applyExpensePatch (exampleDB.get ⟨0, by decide⟩) ⟨some "A2", none, none, none, none⟩ 99).category = v)
  ∧ ((⟨some "A2", none, none, none, none⟩ : ExpenseUpdate).description = none →
      (applyExpensePatch (exampleDB.get ⟨0, by decide⟩) ⟨some "A2", none, none, none, none⟩ 99).description
        = (exampleDB.get ⟨0, by decide⟩).description)
  ∧ (∀ v, (⟨some "A2", none, none, none, none⟩ : ExpenseUpdate).description = some v →
      (applyExpensePatch (exampleDB.get ⟨0, by decide⟩) ⟨some "A2", none, none, none, none⟩ 99).description = v)
  ∧ ((⟨some "A2", none, none, none, none⟩ : ExpenseUpdate).date = none →
      (applyExpensePatch (exampleDB.get ⟨0, by decide⟩) ⟨some "A2", none, none, none, none⟩ 99).date
        = (exampleDB.get ⟨0, by decide⟩).date)
  ∧ (∀ v, (⟨some "A2", none, none, none, none⟩ : ExpenseUpdate).date = some v →
      (applyExpensePatch (exampleDB.get ⟨0, by decide⟩) ⟨some "A2", none, none, none, none⟩ 99).date = v)
  ∧ (applyExpensePatch (exampleDB.get ⟨0, by decide⟩) ⟨some "A2", none, none, none, none⟩ 99).updated_at = 99
  ∧ (applyExpensePatch (exampleDB.get ⟨0, by decide⟩) ⟨some "A2", none, none, none, none⟩ 99).id
      = (exampleDB.get ⟨0, by decide⟩).id
  ∧ (applyExpensePatch (exampleDB.get ⟨0, by decide⟩) ⟨some "A2", none, none, none, none⟩ 99).user_id
      = (exampleDB.get ⟨0, by decide⟩).user_id
  ∧ (applyExpensePatch (exampleDB.get ⟨0, by decide⟩) ⟨some "A2", none, none, none, none⟩ 99).created_at
      = (exampleDB.get ⟨0, by decide⟩).created_at
  ∧ (applyExpensePatch (exampleDB.get ⟨0, by decide⟩) ⟨some "A2", none, none, none, none⟩ 99).ai_confidence
      = (exampleDB.get ⟨0, by decide⟩).ai_confidence
  ∧ (applyExpensePatch (exampleDB.get ⟨0, by decide⟩) ⟨some "A2", none, none, none, none⟩ 99).ai_suggested_category
      = (exampleDB.get ⟨0, by decide⟩).ai_suggested_category
  ∧ applyExpensePatch (exampleDB.get ⟨0, by decide⟩) emptyExpensePatch 99
      = { exampleDB.get ⟨0, by decide⟩ with updated_at := 99 }
  ∧ (findOwnedExpense exampleDB 1 1 = some (exampleDB.get ⟨0, by decide⟩) →
      update_expense exampleDB 1 1 ⟨some "A2", none, none, none, none⟩ 99
        = .ok (applyExpensePatch (exampleDB.get ⟨0, by decide⟩) ⟨some "A2", none, none, none, none⟩ 99)) :=
  C6_update_frame exampleDB 1 1 (exampleDB.get ⟨0, by decide⟩) ⟨some "A2", none, none, none, none⟩ 99

/-- Fusing the owner filter with a start-date filter, in the order the week
and month handlers write it. -/
theorem filter_user_start (db : List Expense) (uid : Nat) (d : Int) :
    (db.filter (fun x => x.user_id == uid)).filter (fun x => decide (d ≤ x.date))
      = db.filter (fun x => x.user_id == uid && decide (d ≤ x.date)) := by
  rw [List.filter_filter]
  apply List.filter_congr
  intro x _
  exact Bool.and_comm _ _

/-- C7: the recent-week view equals the list query with a start-date filter
of now minus 7 days and no other filter, the recent-month view likewise with
now minus 30 days; the full list endpoint is exactly that query followed by
offset/limit pagination; and both recent views are sorted by expense date
descending. -/
theorem C7_recent_views_equiv_list (db : List Expense) (uid : Nat) (now : Int) :
    get_week_expenses db uid now = expensesQuery db uid none (some (now - 7 * 86400)) none
  ∧ get_month_expenses db uid now = expensesQuery db uid none (some (now - 30 * 86400)) none
  ∧ (∀ skip limit category s e, get_expenses db uid skip limit category s e
      = ((expensesQuery db uid category s e).drop skip).take limit)
  ∧ (get_week_expenses db uid now).Sorted dateDesc
  ∧ (get_month_expenses db uid now).Sorted dateDesc := by
  have hweek : get_week_expenses db uid now
      = expensesQuery db uid none (some (now - 7 * 86400)) none := by
    simp only [get_week_expenses, expensesQuery]
    rw [filter_user_start]
  have hmonth : get_month_expenses db uid now
      = expensesQuery db uid none (some (now - 30 * 86400)) none := by
    simp only [get_month_expenses, expensesQuery]
    rw [filter_user_start]
  refine ⟨hweek, hmonth, fun skip limit category s e => rfl, ?_, ?_⟩
  · exact List.sorted_insertionSort dateDesc _
  · exact List.sorted_insertionSort dateDesc _

/-- C7 witness: the equivalences and ordering facts instantiated on the
worked example at time 4 days. -/
theorem C7_recent_views_equiv_list_witness :
    get_week_expenses exampleDB 1 (4 * 86400)
        = expensesQuery exampleDB 1 none (some (4 * 86400 - 7 * 86400)) none
  ∧ get_month_expenses exampleDB 1 (4 * 86400)
        = expensesQuery exampleDB 1 none (some (4 * 86400 - 30 * 86400)) none
  ∧ (∀ skip limit category s e, get_expenses exampleDB 1 skip limit category s e
      = ((expensesQuery exampleDB 1 category s e).drop skip).take limit)
  ∧ (get_week_expenses exampleDB 1 (4 * 86400)).Sorted dateDesc
  ∧ (get_month_expenses exampleDB 1 (4 * 86400)).Sorted dateDesc :=
  C7_recent_views_equiv_list exampleDB 1 (4 * 86400)

/-- When some user carries the identifier as username, the login lookup
resolves to a user with that username (the username probe runs first). -/
theorem findLoginUser_username_first (db : List User) (ident : String)
    (h : ∃ u ∈ db, u.username = ident) :
    ∃ u, findLoginUser db ident = some u ∧ u.username = ident := by
  unfold findLoginUser
  cases hf : db.find? (fun u => u.username == ident) with
  | none =>
    obtain ⟨u, hu, he⟩ := h
    have hc := List.find?_eq_none.mp hf u hu
    simp [he] at hc
  | some u =>
    exact ⟨u, rfl, by simpa using List.find?_some hf⟩

/-- The login lookup misses exactly when no user matches the identifier by
username or by email. -/
theorem findLoginUser_eq_none (db : List User) (ident : String) :
    findLoginUser db ident = none ↔ ∀ u ∈ db, u.username ≠ ident ∧ u.email ≠ ident := by
  unfold findLoginUser
  cases hf : db.find? (fun u => u.username == ident) with
  | none =>
    constructor
    · intro he u hu
      exact ⟨by simpa using List.find?_eq_none.mp hf u hu,
        by simpa using List.find?_eq_none.mp he u hu⟩
    · intro hall
      exact List.find?_eq_none.mpr fun u hu => by simpa using (hall u hu).2
  | some u =>
    have hu : u ∈ db := List.mem_of_find?_eq_some hf
    have he : u.username = ident := by simpa using List.find?_some hf
    constructor
    · intro h
      exact absurd h (Option.some_ne_none u)
    · intro hall
      exact absurd he (hall u hu).1

/-- C4: login resolves the identifier by username first with an email
fallback; it answers 401 when the lookup misses or password verification
fails, 400 (a distinct code) when the matched user is inactive, and otherwise
a token whose subject is the matched user's username and whose expiry is now
plus the configured minutes (1800 seconds under the default of 30) — the
same token whichever identifier resolved to that user. -/
theorem C4_login_behaviour (cfgMinutes : Nat) (db : List User) (vp : String → String → Bool)
    (ident pw : String) (now : Int) (key : String) :
    (findLoginUser db ident = none →
      login cfgMinutes db vp ident pw now key
        = .error ⟨401, "Incorrect username/email or password"⟩)
  ∧ (∀ u, findLoginUser db ident = some u → vp pw u.hashed_password = false →
      login cfgMinutes db vp ident pw now key
        = .error ⟨401, "Incorrect username/email or password"⟩)
  ∧ (∀ u, findLoginUser db ident = some u → vp pw u.hashed_password = true →
      u.is_active = false →
      login cfgMinutes db vp ident pw now key = .error ⟨400, "Inactive user account"⟩)
  ∧ (∀ u, findLoginUser db ident = some u → vp pw u.hashed_password = true →
      u.is_active = true →
      login cfgMinutes db vp ident pw now key
        = .ok ⟨⟨some u.username, none, now + (cfgMinutes : Int) * 60⟩, key⟩)
  ∧ ((∃ u ∈ db, u.username = ident) →
      ∃ u, findLoginUser db ident = some u ∧ u.username = ident)
  ∧ (findLoginUser db ident = none ↔ ∀ u ∈ db, u.username ≠ ident ∧ u.email ≠ ident)
  ∧ (∀ ident2 u, findLoginUser db ident = some u → findLoginUser db ident2 = some u →
      login cfgMinutes db vp ident pw now key = login cfgMinutes db vp ident2 pw now key)
  ∧ (cfgMinutes = ACCESS_TOKEN_EXPIRE_MINUTES_default →
      ∀ u, findLoginUser db ident = some u → vp pw u.hashed_password = true →
      u.is_active = true →
      login cfgMinutes db vp ident pw now key
        = .ok ⟨⟨some u.username, none, now + 1800⟩, key⟩) := by
  refine ⟨fun h => by simp [login, h],
    fun u hu hv => by simp [login, hu, hv, create_access_token],
    fun u hu hv ha => by simp [login, hu, hv, ha, create_access_token],
    fun u hu hv ha => by simp [login, hu, hv, ha, create_access_token],
    findLoginUser_username_first db ident,
    findLoginUser_eq_none db ident,
    fun ident2 u h1 h2 => by simp [login, h1, h2],
    ?_⟩
  intro hcfg u hu hv ha
  subst hcfg
  simp [login, hu, hv, ha, create_access_token, ACCESS_TOKEN_EXPIRE_MINUTES_default]

/-- A one-user directory for the auth witnesses. -/
def exAlice : User :=
  ⟨1, "alice@example.com", "alice", "hpw", some "Alice", true, 0⟩

/-- The user directory of the auth witnesses. -/
def exUsersDB : List User :=
  [exAlice]

/-- A concrete stand-in password verifier for the witnesses. -/
def exVerify (pw stored : String) : Bool :=
  pw == "pw123" && stored == "hpw"

/-- C4 witness: the login contract instantiated on the one-user directory
with the default 30-minute configuration. -/
theorem C4_login_behaviour_witness :
    ((findLoginUser exUsersDB "alice" = none →
      login 30 exUsersDB exVerify "alice" "pw123" 0 "k"
        = .error ⟨401, "Incorrect username/email or password"⟩)
  ∧ (∀ u, findLoginUser exUsersDB "alice" = some u → exVerify "pw123" u.hashed_password = false →
      login 30 exUsersDB exVerify "alice" "pw123" 0 "k"
        = .error ⟨401, "Incorrect username/email or password"⟩)
  ∧ (∀ u, findLoginUser exUsersDB "alice" = some u → exVerify "pw123" u.hashed_password = true →
      u.is_active = false →
      login 30 exUsersDB exVerify "alice" "pw123" 0 "k" = .error ⟨400, "Inactive user account"⟩)
  ∧ (∀ u, findLoginUser exUsersDB "alice" = some u → exVerify "pw123" u.hashed_password = true →
      u.is_active = true →
      login 30 exUsersDB exVerify "alice" "pw123" 0 "k"
        = .ok ⟨⟨some u.username, none, 0 + (30 : Int) * 60⟩, "k"⟩)
  ∧ ((∃ u ∈ exUsersDB, u.username = "alice") →
      ∃ u, findLoginUser exUsersDB "alice" = some u ∧ u.username = "alice")
  ∧ (findLoginUser exUsersDB "alice" = none
      ↔ ∀ u ∈ exUsersDB, u.username ≠ "alice" ∧ u.email ≠ "alice")
  ∧ (∀ ident2 u, findLoginUser exUsersDB "alice" = some u →
      findLoginUser exUsersDB ident2 = some u →
      login 30 exUsersDB exVerify "alice" "pw123" 0 "k"
        = login 30 exUsersDB exVerify ident2 "pw123" 0 "k")
  ∧ (30 = ACCESS_TOKEN_EXPIRE_MINUTES_default →
      ∀ u, findLoginUser exUsersDB "alice" = some u → exVerify "pw123" u.hashed_password = true →
      u.is_active = true →
      login 30 exUsersDB exVerify "alice" "pw123" 0 "k"
        = .ok ⟨⟨some u.username, none, 0 + 1800⟩, "k"⟩))
  ∧ login 30 exUsersDB exVerify "alice" "pw123" 0 "k"
      = login 30 exUsersDB exVerify "alice@example.com" "pw123" 0 "k" :=
  ⟨C4_login_behaviour 30 exUsersDB exVerify "alice" "pw123" 0 "k",
    ((C4_login_behaviour 30 exUsersDB exVerify "alice" "pw123" 0 "k").2.2.2.2.2.2.1
      "alice@example.com" exAlice (by decide) (by decide))⟩

/-- C5: register reports the email conflict first (also when both the email
and the username collide), then the username conflict; with neither conflict
it persists a new active user whose stored password is the hash, answers the
hash-free response representation with creation code 201, and that response
representation never depends on the stored hash. -/
theorem C5_register_behaviour (db : List User) (data : UserCreate) (hash : String → String)
    (now : Int) (newId : Nat) :
    ((∃ u ∈ db, u.email = data.email) →
      register db data hash now newId = .error ⟨400, "Email already registered"⟩)
  ∧ ((¬ ∃ u ∈ db, u.email = data.email) → (∃ u ∈ db, u.username = data.username) →
      register db data hash now newId = .error ⟨400, "Username already taken"⟩)
  ∧ ((¬ ∃ u ∈ db, u.email = data.email) → (¬ ∃ u ∈ db, u.username = data.username) →
      register db data hash now newId
        = .ok (db ++ [⟨newId, data.email, data.username, hash data.password,
            data.full_name, true, now⟩],
          toUserResponse ⟨newId, data.email, data.username, hash data.password,
            data.full_name, true, now⟩))
  ∧ (∀ u s, toUserResponse { u with hashed_password := s } = toUserResponse u)
  ∧ registerStatusCode = 201 := by
  refine ⟨?_, ?_, ?_, fun u s => rfl, rfl⟩
  · intro h
    have hs : (db.find? (fun u => u.email == data.email)).isSome :=
      List.find?_isSome.mpr (by simpa using h)
    simp [register, hs]
  · intro hne h
    have hs : (db.find? (fun u => u.username == data.username)).isSome :=
      List.find?_isSome.mpr (by simpa using h)
    have hno : ¬ (db.find? (fun u => u.email == data.email)).isSome := by
      rw [List.find?_isSome]
      simpa using hne
    simp [register, hs, hno]
  · intro hne hnu
    have hno : ¬ (db.find? (fun u => u.email == data.email)).isSome := by
      rw [List.find?_isSome]
      simpa using hne
    have hnos : ¬ (db.find? (fun u => u.username == data.username)).isSome := by
      rw [List.find?_isSome]
      simpa using hnu
    simp [register, hno, hnos]

/-- C5 witness: registering bob into the one-user directory succeeds and
yields the hash-free response, by the claim theorem with both no-conflict
hypotheses discharged by evaluation. -/
theorem C5_register_behaviour_witness :
    (¬ ∃ u ∈ exUsersDB, u.email = "bob@example.com")
  ∧ (¬ ∃ u ∈ exUsersDB, u.username = "bob")
  ∧ register exUsersDB ⟨"bob@example.com", "bob", none, "pw456"⟩ (fun s => s ++ "#h") 7 2
      = .ok (exUsersDB ++ [⟨2, "bob@example.com", "bob", "pw456" ++ "#h", none, true, 7⟩],
          toUserResponse ⟨2, "bob@example.com", "bob", "pw456" ++ "#h", none, true, 7⟩) :=
  ⟨by decide, by decide,
    (C5_register_behaviour exUsersDB ⟨"bob@example.com", "bob", none, "pw456"⟩
        (fun s => s ++ "#h") 7 2).2.2.1 (by decide) (by decide)⟩

/-- A token whose `type` claim is not `"password_reset"` is rejected by the
reset probe, whatever its signature or expiry. -/
theorem verify_reset_token_wrong_type (t : SignedToken) (key : String) (now : Int)
    (h : t.payload.typ ≠ some "password_reset") :
    verify_reset_token t key now = none := by
  unfold verify_reset_token jwtDecode
  by_cases hc : (t.key == key && decide (now ≤ t.payload.exp)) = true
  · rw [if_pos hc]
    simp [h]
  · rw [if_neg hc]

/-- C8: the reset probe answers the subject exactly when the signature and
expiry check out and the `type` claim is `"password_reset"`, and `none` (it
is total, never an exception) on every other token; a token freshly issued
by the reset issuer verifies to its email throughout its fixed 1-hour life,
and an ordinary access token (no `type` claim) always probes to `none`. -/
theorem C8_verify_reset_token (t : SignedToken) (key : String) (now : Int) :
    (∀ s, verify_reset_token t key now = some s
        ↔ (t.key = key ∧ now ≤ t.payload.exp
            ∧ t.payload.typ = some "password_reset" ∧ t.payload.sub = some s))
  ∧ (∀ cfg email now2 d, 0 ≤ d → d ≤ 3600 →
      verify_reset_token (create_reset_password_token cfg email now2 key) key (now2 + d)
        = some email)
  ∧ (∀ cfg data delta now2, data.typ = none →
      verify_reset_token (create_access_token cfg data delta now2 key) key now = none) := by
  refine ⟨fun s => ?_, fun cfg email now2 d h0 h1 => ?_, fun cfg data delta now2 ht => ?_⟩
  · unfold verify_reset_token jwtDecode
    by_cases hk : t.key = key
    · by_cases hexp : now ≤ t.payload.exp
      · by_cases ht : t.payload.typ = some "password_reset"
        · simp [hk, hexp, ht]
        · simp [hk, hexp, ht]
      · simp [hk, hexp]
    · simp [hk]
  · have hd : now2 + d ≤ now2 + 3600 := by omega
    simp [create_reset_password_token, create_access_token, verify_reset_token, jwtDecode, hd]
  · exact verify_reset_token_wrong_type _ key now (by simp [create_access_token, ht])

/-- C8 witness: a fresh reset token for alice's email verifies to that email
10 seconds after issuance, and an ordinary login token probes to `none`. -/
theorem C8_verify_reset_token_witness :
    ((0 : Int) ≤ 10 ∧ (10 : Int) ≤ 3600
      ∧ verify_reset_token (create_reset_password_token 30 "alice@example.com" 0 "k") "k" (0 + 10)
          = some "alice@example.com")
  ∧ verify_reset_token (create_access_token 30 ⟨some "alice", none⟩ (some 1800) 0 "k") "k" 5
      = none :=
  ⟨⟨by decide, by decide,
    (C8_verify_reset_token (create_reset_password_token 30 "alice@example.com" 0 "k") "k" 5).2.1
      30 "alice@example.com" 0 10 (by decide) (by decide)⟩,
    (C8_verify_reset_token (create_access_token 30 ⟨some "alice", none⟩ (some 1800) 0 "k") "k" 5).2.2
      30 ⟨some "alice", none⟩ (some 1800) 0 rfl⟩

/-- The email write as a single structure update. -/
theorem applyEmailField_eq (u : User) (p : UserUpdate) :
    applyEmailField u p = { u with email := match p.email with
      | some v => if v == "" then u.email else v
      | none => u.email } := by
  unfold applyEmailField
  cases p.email with
  | none => rfl
  | some v =>
    by_cases h : (v == "") = true
    · simp [h]
    · simp [h]

/-- The username write as a single structure update. -/
theorem applyUsernameField_eq (u : User) (p : UserUpdate) :
    applyUsernameField u p = { u with username := match p.username with
      | some v => if v == "" then u.username else v
      | none => u.username } := by
  unfold applyUsernameField
  cases p.username with
  | none => rfl
  | some v =>
    by_cases h : (v == "") = true
    · simp [h]
    · simp [h]

/-- The full-name write as a single structure update. -/
theorem applyFullNameField_eq (u : User) (p : UserUpdate) :
    applyFullNameField u p = { u with full_name := match p.full_name with
      | some v => if v == "" then u.full_name else some v
      | none => u.full_name } := by
  unfold applyFullNameField
  cases p.full_name with
  | none => rfl
  | some v =>
    by_cases h : (v == "") = true
    · simp [h]
    · simp [h]

/-- The password write as a single structure update. -/
theorem applyPasswordField_eq (u : User) (p : UserUpdate) (hash : String → String) :
    applyPasswordField u p hash = { u with hashed_password := match p.password with
      | some v => if v == "" then u.hashed_password else hash v
      | none => u.hashed_password } := by
  unfold applyPasswordField
  cases p.password with
  | none => rfl
  | some v =>
    by_cases h : (v == "") = true
    · simp [h]
    · simp [h]

/-- Two user rows with the same seven fields are equal. -/
theorem User.ext7 (a b : User) (h1 : a.id = b.id) (h2 : a.email = b.email)
    (h3 : a.username = b.username) (h4 : a.hashed_password = b.hashed_password)
    (h5 : a.full_name = b.full_name) (h6 : a.is_active = b.is_active)
    (h7 : a.created_at = b.created_at) : a = b := by
  cases a
  cases b
  simp_all

/-- The stored id is never touched by the field application block. -/
theorem applyProfilePatch_id_proj (u : User) (p : UserUpdate) (hash : String → String) :
    (applyProfilePatch u p hash).id = u.id := by
  simp [applyProfilePatch, applyEmailField_eq, applyUsernameField_eq,
    applyFullNameField_eq, applyPasswordField_eq]

/-- The active flag is never touched by the field application block. -/
theorem applyProfilePatch_is_active_proj (u : User) (p : UserUpdate) (hash : String → String) :
    (applyProfilePatch u p hash).is_active = u.is_active := by
  simp [applyProfilePatch, applyEmailField_eq, applyUsernameField_eq,
    applyFullNameField_eq, applyPasswordField_eq]

/-- The creation timestamp is never touched by the field application block. -/
theorem applyProfilePatch_created_at_proj (u : User) (p : UserUpdate) (hash : String → String) :
    (applyProfilePatch u p hash).created_at = u.created_at := by
  simp [applyProfilePatch, applyEmailField_eq, applyUsernameField_eq,
    applyFullNameField_eq, applyPasswordField_eq]

/-- The stored email after the field application block. -/
theorem applyProfilePatch_email_proj (u : User) (p : UserUpdate) (hash : String → String) :
    (applyProfilePatch u p hash).email
      = match p.email with
        | some v => if v == "" then u.email else v
        | none => u.email := by
  simp [applyProfilePatch, applyEmailField_eq, applyUsernameField_eq,
    applyFullNameField_eq, applyPasswordField_eq]

/-- The stored username after the field application block. -/
theorem applyProfilePatch_username_proj (u : User) (p : UserUpdate) (hash : String → String) :
    (applyProfilePatch u p hash).username
      = match p.username with
        | some v => if v == "" then u.username else v
        | none => u.username := by
  simp [applyProfilePatch, applyEmailField_eq, applyUsernameField_eq,
    applyFullNameField_eq, applyPasswordField_eq]

/-- The stored full name after the field application block. -/
theorem applyProfilePatch_full_name_proj (u : User) (p : UserUpdate) (hash : String → String) :
    (applyProfilePatch u p hash).full_name
      = match p.full_name with
        | some v => if v == "" then u.full_name else some v
        | none => u.full_name := by
  simp [applyProfilePatch, applyEmailField_eq, applyUsernameField_eq,
    applyFullNameField_eq, applyPasswordField_eq]

/-- The stored password hash after the field application block. -/
theorem applyProfilePatch_hashed_password_proj (u : User) (p : UserUpdate)
    (hash : String → String) :
    (applyProfilePatch u p hash).hashed_password
      = match p.password with
        | some v => if v == "" then u.hashed_password else hash v
        | none => u.hashed_password := by
  simp [applyProfilePatch, applyEmailField_eq, applyUsernameField_eq,
    applyFullNameField_eq, applyPasswordField_eq]

/-- Re-running the field application block changes nothing (with a fixed hash
function). -/
theorem applyProfilePatch_idem (cu : User) (p : UserUpdate) (hash : String → String) :
    applyProfilePatch (applyProfilePatch cu p hash) p hash = applyProfilePatch cu p hash := by
  apply User.ext7
  · rw [applyProfilePatch_id_proj]
  · cases hp : p.email with
    | none => rw [applyProfilePatch_email_proj]; simp [hp]
    | some v =>
      by_cases hv : (v == "") = true
      · rw [applyProfilePatch_email_proj]; simp [hp, hv]
      · rw [applyProfilePatch_email_proj, applyProfilePatch_email_proj]; simp [hp, hv]
  · cases hp : p.username with
    | none => rw [applyProfilePatch_username_proj]; simp [hp]
    | some v =>
      by_cases hv : (v == "") = true
      · rw [applyProfilePatch_username_proj]; simp [hp, hv]
      · rw [applyProfilePatch_username_proj, applyProfilePatch_username_proj]; simp [hp, hv]
  · cases hp : p.password with
    | none => rw [applyProfilePatch_hashed_password_proj]; simp [hp]
    | some v =>
      by_cases hv : (v == "") = true
      · rw [applyProfilePatch_hashed_password_proj]; simp [hp, hv]
      · rw [applyProfilePatch_hashed_password_proj, applyProfilePatch_hashed_password_proj]
        simp [hp, hv]
  · cases hp : p.full_name with
    | none => rw [applyProfilePatch_full_name_proj]; simp [hp]
    | some v =>
      by_cases hv : (v == "") = true
      · rw [applyProfilePatch_full_name_proj]; simp [hp, hv]
      · rw [applyProfilePatch_full_name_proj, applyProfilePatch_full_name_proj]; simp [hp, hv]
  · rw [applyProfilePatch_is_active_proj]
  · rw [applyProfilePatch_created_at_proj]

/-- C9 counterexample to the claim as stated: a patch whose `full_name` is
present but empty is a present field, yet `update_profile` leaves the stored
full name unchanged, because the code guards each write with Python
truthiness (`if user_update.full_name:`), not presence. -/
theorem C9_counterexample_empty_field_ignored :
    (⟨none, none, some "", none⟩ : UserUpdate).full_name = some ""
  ∧ update_profile exUsersDB exAlice ⟨none, none, some "", none⟩ (fun s => s ++ "#h")
      = .ok exAlice
  ∧ exAlice.full_name = some "Alice"
  ∧ exAlice.full_name ≠ some "" :=
  ⟨rfl, rfl, rfl, by decide⟩

/-- C9 (amended): profile update applies each of email, username, full_name
and password independently, and only when the field is present with a
non-empty value (Python truthiness) — absent or empty fields leave the
stored values unchanged, passwords are stored re-hashed; re-submitting the
current email or username raises no conflict, while a truthy new value held
by another row is rejected with the duplicate error (email checked first);
with no conflict the patched row is stored, and re-applying the same patch
to the stored row changes nothing. -/
theorem C9_profile_update_truthy_fields (db : List User) (cu : User) (p : UserUpdate)
    (hash : String → String) :
    ((p.email = none ∨ p.email = some "") →
      (applyProfilePatch cu p hash).email = cu.email)
  ∧ (∀ v, p.email = some v → v ≠ "" → (applyProfilePatch cu p hash).email = v)
  ∧ ((p.username = none ∨ p.username = some "") →
      (applyProfilePatch cu p hash).username = cu.username)
  ∧ (∀ v, p.username = some v → v ≠ "" → (applyProfilePatch cu p hash).username = v)
  ∧ ((p.full_name = none ∨ p.full_name = some "") →
      (applyProfilePatch cu p hash).full_name = cu.full_name)
  ∧ (∀ v, p.full_name = some v → v ≠ "" → (applyProfilePatch cu p hash).full_name = some v)
  ∧ ((p.password = none ∨ p.password = some "") →
      (applyProfilePatch cu p hash).hashed_password = cu.hashed_password)
  ∧ (∀ v, p.password = some v → v ≠ "" →
      (applyProfilePatch cu p hash).hashed_password = hash v)
  ∧ (applyProfilePatch cu p hash).id = cu.id
  ∧ (applyProfilePatch cu p hash).is_active = cu.is_active
  ∧ (applyProfilePatch cu p hash).created_at = cu.created_at
  ∧ (p.email = some cu.email → emailConflict db cu p = false)
  ∧ (p.username = some cu.username → usernameConflict db cu p = false)
  ∧ (∀ v, p.email = some v → v ≠ "" → v ≠ cu.email → (∃ u ∈ db, u.email = v) →
      update_profile db cu p hash = .error ⟨400, "Email already in use"⟩)
  ∧ (∀ v, emailConflict db cu p = false → p.username = some v → v ≠ "" →
      v ≠ cu.username → (∃ u ∈ db, u.username = v) →
      update_profile db cu p hash = .error ⟨400, "Username already taken"⟩)
  ∧ (emailConflict db cu p = false → usernameConflict db cu p = false →
      update_profile db cu p hash = .ok (applyProfilePatch cu p hash))
  ∧ (∀ u2, update_profile db cu p hash = .ok u2 → applyProfilePatch u2 p hash = u2) := by
  refine ⟨?_, ?_, ?_, ?_, ?_, ?_, ?_, ?_, ?_, ?_, ?_, ?_, ?_, ?_, ?_, ?_, ?_⟩
  · rintro (h | h) <;>
      simp [applyProfilePatch, applyEmailField_eq, applyUsernameField_eq,
        applyFullNameField_eq, applyPasswordField_eq, h]
  · intro v h hne
    simp [applyProfilePatch, applyEmailField_eq, applyUsernameField_eq,
      applyFullNameField_eq, applyPasswordField_eq, h, hne]
  · rintro (h | h) <;>
      simp [applyProfilePatch, applyEmailField_eq, applyUsernameField_eq,
        applyFullNameField_eq, applyPasswordField_eq, h]
  · intro v h hne
    simp [applyProfilePatch, applyEmailField_eq, applyUsernameField_eq,
      applyFullNameField_eq, applyPasswordField_eq, h, hne]
  · rintro (h | h) <;>
      simp [applyProfilePatch, applyEmailField_eq, applyUsernameField_eq,
        applyFullNameField_eq, applyPasswordField_eq, h]
  · intro v h hne
    simp [applyProfilePatch, applyEmailField_eq, applyUsernameField_eq,
      applyFullNameField_eq, applyPasswordField_eq, h, hne]
  · rintro (h | h) <;>
      simp [applyProfilePatch, applyEmailField_eq, applyUsernameField_eq,
        applyFullNameField_eq, applyPasswordField_eq, h]
  · intro v h hne
    simp [applyProfilePatch, applyEmailField_eq, applyUsernameField_eq,
      applyFullNameField_eq, applyPasswordField_eq, h, hne]
  · simp [applyProfilePatch, applyEmailField_eq, applyUsernameField_eq,
      applyFullNameField_eq, applyPasswordField_eq]
  · simp [applyProfilePatch, applyEmailField_eq, applyUsernameField_eq,
      applyFullNameField_eq, applyPasswordField_eq]
  · simp [applyProfilePatch, applyEmailField_eq, applyUsernameField_eq,
      applyFullNameField_eq, applyPasswordField_eq]
  · intro h
    simp [emailConflict, h]
  · intro h
    simp [usernameConflict, h]
  · intro v hv hne hneq hex
    have hconf : emailConflict db cu p = true := by
      simp [emailConflict, hv, hne, hneq, List.find?_isSome]
      simpa using hex
    simp [update_profile, hconf]
  · intro v heC hv hne hneq hex
    have hconf : usernameConflict db cu p = true := by
      simp [usernameConflict, hv, hne, hneq, List.find?_isSome]
      simpa using hex
    simp [update_profile, heC, hconf]
  · intro h1 h2
    simp [update_profile, h1, h2]
  · intro u2 h
    unfold update_profile at h
    by_cases h1 : emailConflict db cu p = true
    · simp [h1] at h
    · by_cases h2 : usernameConflict db cu p = true
      · simp [h1, h2] at h
      · simp [h1, h2] at h
        rw [← h]
        exact applyProfilePatch_idem cu p hash

/-- C9 witness: alice renames herself and changes her password in the
one-user directory; the no-conflict hypotheses are discharged by evaluation
and the stored row follows the truthiness semantics. -/
theorem C9_profile_update_truthy_fields_witness :
    emailConflict exUsersDB exAlice ⟨none, some "alicia", some "Alicia", some "pw789"⟩ = false
  ∧ usernameConflict exUsersDB exAlice ⟨none, some "alicia", some "Alicia", some "pw789"⟩ = false
  ∧ update_profile exUsersDB exAlice ⟨none, some "alicia", some "Alicia", some "pw789"⟩
        (fun s => s ++ "#h")
      = .ok (applyProfilePatch exAlice ⟨none, some "alicia", some "Alicia", some "pw789"⟩
        (fun s => s ++ "#h")) :=
  ⟨by decide, by decide,
    (C9_profile_update_truthy_fields exUsersDB exAlice
        ⟨none, some "alicia", some "Alicia", some "pw789"⟩
        (fun s => s ++ "#h")).2.2.2.2.2.2.2.2.2.2.2.2.2.2.2.1 (by decide) (by decide)⟩

end ExpenseTracker
